import Mathlib

/-!
Shallow embedding of the document/transport core of the xor-bits/text-editor
repository (src/buffer.rs and src/tramp.rs), together with theorems settling
the specification's claims about it.  Ropes and Rust strings are modelled as
lists of characters, byte strings as lists of naturals below 256, and the
effectful boundary (filesystem opens, pty sessions, the tree-sitter engine,
the NBT codec) as explicit parameters recording the outcome of each external
call.
-/

/-- Model of Rust's `char::is_whitespace` (the Unicode White_Space property):
U+0009..U+000D, space, U+0085, U+00A0, U+1680, U+2000..U+200A, U+2028, U+2029,
U+202F, U+205F and U+3000. -/
def rustWhitespace (c : Char) : Bool :=
  (9 ≤ c.toNat && c.toNat ≤ 13) || c = ' ' || c.toNat = 133 || c.toNat = 160 ||
  c.toNat = 5760 || (8192 ≤ c.toNat && c.toNat ≤ 8202) || c.toNat = 8232 ||
  c.toNat = 8233 || c.toNat = 8239 || c.toNat = 8287 || c.toNat = 12288

/-- Model of Rust's `char::to_digit(16)`: decimal digits and the letters
a..f / A..F, as used by `Buffer::write_to` on the hex transform. -/
def toDigit16 (c : Char) : Option Nat :=
  if '0' ≤ c && c ≤ '9' then some (c.toNat - 48)
  else if 'a' ≤ c && c ≤ 'f' then some (c.toNat - 97 + 10)
  else if 'A' ≤ c && c ≤ 'F' then some (c.toNat - 65 + 10)
  else none

/-- Model of Rust's `str::trim`: strip whitespace from both ends. -/
def rustTrim (cs : List Char) : List Char :=
  ((cs.dropWhile rustWhitespace).reverse.dropWhile rustWhitespace).reverse

/-- Model of Rust's `str::split(sep)`: the list of (possibly empty) pieces
between occurrences of the separator character. -/
def splitOnChar (sep : Char) : List Char → List (List Char)
  | [] => [[]]
  | c :: rest =>
    let r := splitOnChar sep rest
    if c = sep then [] :: r
    else
      match r with
      | g :: gs => (c :: g) :: gs
      | [] => [[c]]

/-- Model of Rust's `u16::from_str` as used by `a2.parse::<u16>()` in
`Part::parse`: an optional leading plus sign, then one or more ascii decimal
digits, with the value required to fit in 16 bits. -/
def parseU16 (s : List Char) : Option Nat :=
  let ds := if s.headD 'x' = '+' then s.tail else s
  if ds.isEmpty then none
  else if ds.all Char.isDigit then
    let v := ds.foldl (fun a c => a * 10 + (c.toNat - 48)) 0
    if v ≤ 65535 then some v else none
  else none

namespace Tramp

/-! Interned strings (src/tramp.rs, `Str`).  The backing pool (a Rust
`String`) is modelled as a list of characters that is threaded explicitly. -/

/-- Handle into the shared string pool: byte offset and length, as in
`Str { start: u32, len: u32 }` (indices modelled as naturals). -/
structure Str where
  start : Nat
  len : Nat
deriving DecidableEq, Repr

/-- Model of Rust's `str::find(&str)`: index of the first occurrence of `s`
as a contiguous substring of `pool` (`some 0` on an empty needle). -/
def strFind (pool s : List Char) : Option Nat :=
  match pool with
  | [] => if s.isEmpty then some 0 else none
  | c :: rest =>
    if s.isPrefixOf (c :: rest) then some 0
    else (strFind rest s).map (· + 1)

/-- Model of `Str::new`: reuse the first occurrence of `s` inside the pool if
there is one, otherwise append `s` to the pool; returns the handle and the
updated pool. -/
def strNew (pool s : List Char) : Str × List Char :=
  match strFind pool s with
  | some start => (⟨start, s.length⟩, pool)
  | none => (⟨pool.length, s.length⟩, pool ++ s)

/-- Model of `Str::as_str`: the slice `pool[start..][..len]`. -/
def Str.asStr (h : Str) (pool : List Char) : List Char :=
  (pool.drop h.start).take h.len

/-! Hop descriptors (src/tramp.rs, `Part`). -/

/-- One segment of a hop chain, as in the source: `Ssh` carries an interned
destination and a port, `Docker` an interned container id; `Sudo` and `Bash`
carry nothing (in particular no variant stores a password flag). -/
inductive Part where
  | Ssh (destination : Str) (port : Nat)
  | Docker (container : Str)
  | Sudo
  | Bash
deriving DecidableEq, Repr

/-- Model of `Part::parse`: split the segment on colons, dispatch on the
first token; for `ssh` the second token is the destination (interned into the
pool) and the optional third token is parsed as a port number.  Any further
tokens (such as a trailing `askpw`) are never read, and no variant records a
password request.  Unknown protocol tokens are an error.  (On the error paths
the Rust pool may already contain a freshly interned destination; the model
returns the errors without the updated pool, which no claim observes.) -/
def Part.parse (pool : List Char) (s : List Char) : Except String (Part × List Char) :=
  let args := splitOnChar ':' s
  let protoId := args.headD s
  let rest := args.tail
  if protoId = "ssh".toList then
    match rest with
    | [] => .error "missing ssh destination"
    | dest :: rest2 =>
      let (destination, pool') := strNew pool dest
      match rest2 with
      | [] => .ok (.Ssh destination 22, pool')
      | a2 :: _ =>
        match parseU16 a2 with
        | some port => .ok (.Ssh destination port, pool')
        | none => .error "invalid digit found in string"
  else if protoId = "sudo".toList then .ok (.Sudo, pool)
  else if protoId = "docker".toList then
    match rest with
    | [] => .error "missing docker container ID"
    | container :: _ =>
      let (container, pool') := strNew pool container
      .ok (.Docker container, pool')
  else if protoId = "bash".toList then .ok (.Bash, pool)
  else .error "unknown protocol"

/-! Tunnel sessions and the connection pool (src/tramp.rs).  A live pty
session is modelled by an identity tag plus the chain it was built for; the
pool is a map from chains to stacks of idle sessions. -/

/-- A `Connection`: the chain it replayed plus an identity tag standing for
the underlying shell process (two sessions are "the same object" iff they are
equal). -/
structure Session where
  sid : Nat
  remote : List Part
deriving DecidableEq, Repr

/-- Model of `Vec::pop` on an idle bucket: remove and return the last
element. -/
def vecPop {α : Type} : List α → Option (α × List α)
  | [] => none
  | [x] => some (x, [])
  | x :: y :: rest =>
    match vecPop (y :: rest) with
    | some (last, front) => some (last, x :: front)
    | none => none

/-- The pool's idle-session map, keyed by the exact chain. -/
def Pool : Type := List Part → List Session

/-- Point update of the idle-session map. -/
def updatePool (p : Pool) (ch : List Part) (v : List Session) : Pool :=
  fun c => if c = ch then v else p c

/-- Model of `ConnectionPool::recycle`: push the session back onto its own
chain's idle list (`entry(conn.remote).or_default().push(conn)`). -/
def recycle (p : Pool) (s : Session) : Pool :=
  updatePool p s.remote (p s.remote ++ [s])

/-- Model of `ConnectionPool::connect_to`: pop an idle session for the exact
chain if the bucket has one; otherwise spawn a fresh session (identified by
`freshId`) and run the whole login sequence.  The boolean records whether the
login sequence was executed. -/
def connectTo (p : Pool) (ch : List Part) (freshId : Nat) : Session × Pool × Bool :=
  match vecPop (p ch) with
  | some (conn, rest) => (conn, updatePool p ch rest, false)
  | none => (⟨freshId, ch⟩, p, true)

/-! The password-prompt path of a hop (src/tramp.rs,
`Connection::run_cmd_askpw_checked`).  The two pattern waits on the pty are
modelled by their observed results: the first wait yields the captured output
together with an optional match of the password-prompt pattern, the second
wait yields the echoed exit status. -/

/-- Outcome of running a checked command: success with output, a
command-failure error (output and exit code), or a process panic. -/
inductive CmdResult where
  | ok (output : List Char)
  | failed (output exitCode : List Char)
  | panicked (msg : List Char)
deriving DecidableEq, Repr

/-- Model of `Connection::run_cmd_askpw_checked`, given the results of its
two `wait` calls: if the first wait matched the password-prompt pattern the
source executes `todo!("got askpw '{askpw}'")`, which panics; otherwise a
trimmed exit status other than `"0"` is a command-failure error and `"0"`
yields the captured output. -/
def runCmdAskpwChecked (firstWait : List Char × Option (List Char))
    (exitWait : List Char) : CmdResult :=
  match firstWait with
  | (_, some askpw) => .panicked ("got askpw '".toList ++ askpw ++ "'".toList)
  | (result, none) =>
    let ec := rustTrim exitWait
    if ec = "0".toList then .ok result
    else .failed (rustTrim result) ec

end Tramp

namespace Buffer

/-! Content transforms (src/buffer.rs). -/

/-- The tag recording which encoding produced the rope contents. -/
inductive ContentTransform where
  | Utf8
  | Hex
  | Nbt
deriving DecidableEq, Repr

/-! The hex-dump reader (src/buffer.rs, `Buffer::read_hex`).  The source
formats the input bytes with a little state machine driven by the `FORMAT`
control table: each entry says whether to emit the high nibble, the low
nibble (consuming the byte), a space, or a newline that resets the column. -/

/-- The control alphabet of the hex formatter. -/
inductive Control where
  | first
  | second
  | space
  | next
deriving DecidableEq, Repr

/-- The `FORMAT` table: eight `First Second Space` groups, a lone `Space`,
eight `Space First Second` groups, then `Next`. -/
def FORMAT : List Control := [
  .first, .second, .space,
  .first, .second, .space,
  .first, .second, .space,
  .first, .second, .space,
  .first, .second, .space,
  .first, .second, .space,
  .first, .second, .space,
  .first, .second, .space,

  .space,

  .space, .first, .second,
  .space, .first, .second,
  .space, .first, .second,
  .space, .first, .second,
  .space, .first, .second,
  .space, .first, .second,
  .space, .first, .second,
  .space, .first, .second,

  .next]

/-- Model of `HexReader::hex_to_ascii`: a nibble as a lowercase hex digit
(values 16 and above are unreachable in the source). -/
def hexToAscii (hex : Nat) : Char :=
  if hex < 10 then Char.ofNat (48 + hex)
  else if hex < 16 then Char.ofNat (97 + hex - 10)
  else 'x'

/-- Model of the `HexReader` read loop: the pending byte is peeked, the
control entry at the current column decides what character to emit, and the
byte is consumed by `Second`.  `Next` (the last table entry, reached only at
column 49) emits the newline and resets the column to 0, where the table
starts with `First, Second`; that wrap is inlined here (newline, then both
nibbles of the pending byte, continuing at column 2) so that the recursion is
structural in the byte list.  The high and low nibbles are
`(byte & 0xF0) >> 4` and `byte & 0xF` as in the source.  When the input is
exhausted the loop stops, so trailing spaces and the final row's newline are
never emitted. -/
def readHexAux : List Nat → Nat → List Char
  | [], _ => []
  | b :: rest, col =>
    match h : FORMAT.get? col with
    | some .first => hexToAscii ((b.land 240) >>> 4) :: readHexAux (b :: rest) (col + 1)
    | some .second => hexToAscii (b.land 15) :: readHexAux rest (col + 1)
    | some .space => ' ' :: readHexAux (b :: rest) (col + 1)
    | some .next =>
      '\n' :: hexToAscii ((b.land 240) >>> 4) :: hexToAscii (b.land 15) :: readHexAux rest 2
    | none => []
termination_by bytes col => (bytes.length, 50 - col)
decreasing_by
  all_goals simp_wf
  all_goals first
    | exact Prod.Lex.left _ _ (by omega)
    | exact Prod.Lex.right _
        (by obtain ⟨hlt, -⟩ := List.get?_eq_some.mp h; simp [FORMAT] at hlt; omega)

/-- Model of `Buffer::read_hex`: the editable text produced for raw bytes,
starting the formatter at column 0. -/
def readHex (bytes : List Nat) : List Char := readHexAux bytes 0

/-! Text detection (src/buffer.rs, `Buffer::try_read_utf8`).  The source
calls `std::str::from_utf8`; the model below is the standard UTF-8 decoder:
it accepts exactly the well-formed sequences (rejecting overlong forms,
surrogates and values above U+10FFFF) and yields the decoded characters. -/

/-- A UTF-8 continuation byte, `0x80..=0xBF`. -/
def utf8Cont (b : Nat) : Bool := 128 ≤ b && b ≤ 191

/-- Model of `std::str::from_utf8` (composed with reading the characters of
the resulting string): decode a byte list as UTF-8, `none` on any ill-formed
input. -/
def decodeUtf8 : List Nat → Option (List Char)
  | [] => some []
  | b :: rest =>
    if b ≤ 127 then
      (decodeUtf8 rest).map (fun cs => Char.ofNat b :: cs)
    else if 194 ≤ b && b ≤ 223 then
      match rest with
      | c1 :: rest1 =>
        if utf8Cont c1 then
          (decodeUtf8 rest1).map (fun cs => Char.ofNat ((b - 192) * 64 + (c1 - 128)) :: cs)
        else none
      | [] => none
    else if (b = 224 || (225 ≤ b && b ≤ 236) || b = 237 || b = 238 || b = 239) then
      match rest with
      | c1 :: c2 :: rest2 =>
        let c1ok :=
          if b = 224 then 160 ≤ c1 && c1 ≤ 191
          else if b = 237 then 128 ≤ c1 && c1 ≤ 159
          else utf8Cont c1
        if c1ok && utf8Cont c2 then
          (decodeUtf8 rest2).map
            (fun cs => Char.ofNat ((b - 224) * 4096 + (c1 - 128) * 64 + (c2 - 128)) :: cs)
        else none
      | _ => none
    else if (b = 240 || (241 ≤ b && b ≤ 243) || b = 244) then
      match rest with
      | c1 :: c2 :: c3 :: rest3 =>
        let c1ok :=
          if b = 240 then 144 ≤ c1 && c1 ≤ 191
          else if b = 244 then 128 ≤ c1 && c1 ≤ 143
          else utf8Cont c1
        if c1ok && utf8Cont c2 && utf8Cont c3 then
          (decodeUtf8 rest3).map (fun cs =>
            Char.ofNat
              ((b - 240) * 262144 + (c1 - 128) * 4096 + (c2 - 128) * 64 + (c3 - 128)) :: cs)
        else none
      | _ => none
    else none

/-- Model of `Buffer::read_from`: fixed detection order.  Valid UTF-8 wins;
otherwise the structured-binary decoder (gzip header check, NBT decode and
pretty-printing, an external codec modelled by the `tryNbt` parameter) is
tried; otherwise the hex dump, which always succeeds.  The syntax-tracker
construction performed alongside (external tree-sitter engine) is not part of
this model. -/
def readFrom (tryNbt : List Nat → Option (List Char)) (bytes : List Nat) :
    List Char × ContentTransform :=
  match decodeUtf8 bytes with
  | some s => (s, .Utf8)
  | none =>
    match tryNbt bytes with
    | some txt => (txt, .Nbt)
    | none => (readHex bytes, .Hex)

/-! Rope index conversions used by the hex serializer's error reporting
(ropey's `char_to_line` and `line_to_char` on the rope's characters).  Under
ropey's default features (`unicode_lines` and `cr_lines`) a line break is any
of LF (U+000A), VT (U+000B), FF (U+000C), CR (U+000D), NEL (U+0085),
LS (U+2028) or PS (U+2029), and the pair CR LF counts as a single break; a
break belongs to the line it ends. -/

/-- A character that ropey recognizes as a line break (the CR LF pair is
handled separately by the conversions below). -/
def isBreakChar (c : Char) : Bool :=
  c = '\n' || c.toNat = 11 || c.toNat = 12 || c = '\r' || c.toNat = 133 ||
  c.toNat = 8232 || c.toNat = 8233

/-- Model of `Rope::char_to_line`: the line index of character `i`, i.e. the
number of line breaks completed strictly before it (a CR directly followed by
LF completes only after the LF). -/
def charToLine : List Char → Nat → Nat
  | _, 0 => 0
  | [], _ + 1 => 0
  | '\r' :: '\n' :: rest, i + 1 =>
    match i with
    | 0 => 0
    | i' + 1 => 1 + charToLine rest i'
  | c :: rest, i + 1 =>
    if isBreakChar c then 1 + charToLine rest i
    else charToLine rest i

/-- Model of `Rope::line_to_char`: the character index at which line `row`
starts. -/
def lineToChar : List Char → Nat → Nat
  | _, 0 => 0
  | [], _ + 1 => 0
  | '\r' :: '\n' :: rest, row + 1 => 2 + lineToChar rest row
  | c :: rest, row + 1 =>
    if isBreakChar c then 1 + lineToChar rest row
    else 1 + lineToChar rest (row + 1)

/-! The hex serializer (src/buffer.rs, `Buffer::write_to`, `Hex` arm).  The
source enumerates the rope's characters, skips whitespace, collects hex
digits into byte pairs, reports the 1-based row/column of the first character
that is neither, and left-shifts a final lone digit into its own byte. -/

/-- The enumerated serializing loop: `orig` is the whole rope (used for the
row/column computation), `cs` the remaining characters, `i` the index of the
next character, `state` the pending high nibble, `buf` the bytes produced so
far.  A character that is not whitespace and not a hex digit stops the loop
with the error `(row + 1, col + 1)` computed exactly as in the source. -/
def writeHexGo (orig : List Char) : List Char → Nat → Option Nat → List Nat →
    Except (Nat × Nat) (List Nat)
  | [], _, state, buf =>
    .ok (buf ++ (match state with | some s => [s <<< 4] | none => []))
  | c :: rest, i, state, buf =>
    if rustWhitespace c then writeHexGo orig rest (i + 1) state buf
    else
      match toDigit16 c with
      | none =>
        let row := charToLine orig i
        let col := i - lineToChar orig row
        .error (row + 1, col + 1)
      | some hexdigit =>
        match state with
        | some s => writeHexGo orig rest (i + 1) none (buf ++ [(s <<< 4) ||| hexdigit])
        | none => writeHexGo orig rest (i + 1) (some hexdigit) buf

/-- The `Hex` arm of `Buffer::write_to` as a function of the rope contents:
the raw bytes, or the 1-based position of the offending character. -/
def writeHexBytes (contents : List Char) : Except (Nat × Nat) (List Nat) :=
  writeHexGo contents contents 0 none []

/-- The UTF-8 encoding of one character (model of how `Rope::write_to` puts
the rope's text back on disk byte for byte). -/
def charUtf8 (c : Char) : List Nat :=
  let n := c.toNat
  if n ≤ 127 then [n]
  else if n ≤ 2047 then [192 + n / 64, 128 + n % 64]
  else if n ≤ 65535 then [224 + n / 4096, 128 + n / 64 % 64, 128 + n % 64]
  else [240 + n / 262144, 128 + n / 4096 % 64, 128 + n / 64 % 64, 128 + n % 64]

/-- The byte sequence of a rope, characters encoded as UTF-8. -/
def utf8Encode (cs : List Char) : List Nat := cs.flatMap charUtf8

/-- Serialization errors of `Buffer::write_to`: an invalid hex token with its
1-based position, or a failure of the external NBT codec. -/
inductive EncodeErr where
  | invalidToken (row col : Nat)
  | nbtFailed
deriving DecidableEq, Repr

/-- Model of `Buffer::write_to`: `Utf8` writes the rope's bytes verbatim,
`Hex` re-parses the hex grid via the enumerated loop above, `Nbt` re-parses
and re-compresses through the external codec (the `nbtEnc` parameter). -/
def writeTo (nbtEnc : List Char → Option (List Nat)) (contents : List Char)
    (ty : ContentTransform) : Except EncodeErr (List Nat) :=
  match ty with
  | .Utf8 => .ok (utf8Encode contents)
  | .Hex =>
    match writeHexBytes contents with
    | .ok bytes => .ok bytes
    | .error (row, col) => .error (.invalidToken row col)
  | .Nbt =>
    match nbtEnc contents with
    | some bytes => .ok bytes
    | none => .error .nbtFailed

/-! The document itself (src/buffer.rs, `Buffer` and `BufferInner`). -/

/-- The error kinds of `std::io` that `open_local` inspects. -/
inductive IoErr where
  | permissionDenied
  | notFound
  | alreadyExists
  | otherErr
deriving DecidableEq, Repr

/-- Storage provenance, as in `BufferInner`: an opened local file (with its
read-only flag), a not-yet-created local file, a remote file behind a chain,
or a scratch buffer. -/
inductive BufferInner where
  | file (readonly : Bool)
  | newFile (path : String)
  | remote (chain : List Tramp.Part) (readonly : Bool)
  | scratch (showWelcome : Bool)
deriving DecidableEq, Repr

/-- The document: rope contents, display name, content transform, storage
provenance, dirty flag, and the (externally built, here abstract) syntax
tracker state. -/
structure Doc where
  contents : List Char
  name : String
  ty : ContentTransform
  inner : BufferInner
  modified : Bool
  syn : Option Nat
deriving DecidableEq, Repr

/-- Model of `Buffer::open_local`.  The two filesystem probes are passed in
as their observed outcomes: `rwAttempt` is the result of the read-write
`create(false)` open, `roAttempt` of the read-only open (whose bytes are the
file's contents on success).  The control flow mirrors the source: a
permission-denied error on the read-write attempt falls through to the
read-only attempt, ANY other read-write error (including not-found) is
returned as a failure; a not-found error on the read-only attempt falls
through to the not-yet-created case, any other read-only error is a failure.
`synRw`, `synRo` and `synNew` stand for the syntax trackers the source builds
from the decoded contents of the respective branch. -/
def openLocal (rwAttempt roAttempt : Except IoErr (List Nat))
    (tryNbt : List Nat → Option (List Char)) (synRw synRo synNew : Option Nat)
    (path : String) : Except IoErr Doc :=
  match rwAttempt with
  | .ok bytes =>
    let (contents, ty) := readFrom tryNbt bytes
    .ok ⟨contents, path, ty, .file false, false, synRw⟩
  | .error .permissionDenied =>
    match roAttempt with
    | .ok bytes =>
      let (contents, ty) := readFrom tryNbt bytes
      .ok ⟨contents, path, ty, .file true, false, synRo⟩
    | .error .notFound =>
      let (contents, ty) := readFrom tryNbt []
      .ok ⟨contents, path, ty, .newFile path, false, synNew⟩
    | .error e => .error e
  | .error e => .error e

/-- Rendering of the error messages `write` can produce. -/
def encodeErrMsg : EncodeErr → String
  | .invalidToken row col => "invalid token at " ++ toString row ++ ":" ++ toString col
  | .nbtFailed => "nbt encode failed"

/-- Rendering of an io error as a message. -/
def ioErrMsg : IoErr → String
  | .permissionDenied => "permission denied"
  | .notFound => "not found"
  | .alreadyExists => "file exists"
  | .otherErr => "io error"

/-- Model of `Buffer::write`.  The result is the final document, the bytes
now stored in the destination (`none` when the destination was never
touched), and an error message if the call failed.  `createNew` is the
observed outcome of the exclusive `create_new(true)` open used for
not-yet-created files (it fails if something else created the file first).
A read-only file or remote is refused before anything is written; a
read-write file is truncated before encoding (so an encoding failure leaves
it empty, `some []`); a successful write clears the dirty flag; writing a
scratch buffer clears its welcome flag and fails. -/
def write (d : Doc) (nbtEnc : List Char → Option (List Nat))
    (createNew : Except IoErr Unit) : Doc × Option (List Nat) × Option String :=
  match d.inner with
  | .file true => (d, none, some "readonly")
  | .file false =>
    match writeTo nbtEnc d.contents d.ty with
    | .error e => (d, some [], some (encodeErrMsg e))
    | .ok bytes => ({d with modified := false}, some bytes, none)
  | .newFile _ =>
    match createNew with
    | .error e => (d, none, some (ioErrMsg e))
    | .ok _ =>
      match writeTo nbtEnc d.contents d.ty with
      | .error e => (d, some [], some (encodeErrMsg e))
      | .ok bytes =>
        ({d with inner := .file false, modified := false}, some bytes, none)
  | .remote _ true => (d, none, some "readonly")
  | .remote _ false =>
    match writeTo nbtEnc d.contents d.ty with
    | .error e => (d, none, some (encodeErrMsg e))
    | .ok bytes => ({d with modified := false}, some bytes, none)
  | .scratch _ => ({d with inner := .scratch false}, none, some "no file path set")

/-! Text mutation (src/buffer.rs, `Buffer::replace_text_at` and its
wrappers), including the index conversions feeding the tree-sitter edit. -/

/-- The UTF-8 byte length of a character list (Rust `str::len`). -/
def utf8Len (cs : List Char) : Nat := (cs.map Char.utf8Size).sum

/-- Model of `Rope::char_to_byte`. -/
def charToByte (cs : List Char) (i : Nat) : Nat := utf8Len (cs.take i)

/-- Model of `Rope::byte_to_line`: the line index of the byte at offset `b`,
with the same line-break set as `charToLine` (CR and LF are one byte each, so
the CR LF pair spans two bytes of its line). -/
def byteToLine : List Char → Nat → Nat
  | [], _ => 0
  | '\r' :: '\n' :: rest, b =>
    if b < 2 then 0 else 1 + byteToLine rest (b - 2)
  | c :: rest, b =>
    if b < c.utf8Size then 0
    else (if isBreakChar c then 1 else 0) + byteToLine rest (b - c.utf8Size)

/-- Model of `Rope::line_to_byte`: the byte index at which line `row`
starts. -/
def lineToByte : List Char → Nat → Nat
  | _, 0 => 0
  | [], _ + 1 => 0
  | '\r' :: '\n' :: rest, row + 1 => 2 + lineToByte rest row
  | c :: rest, row + 1 =>
    if isBreakChar c then c.utf8Size + lineToByte rest row
    else c.utf8Size + lineToByte rest (row + 1)

/-- The tree-sitter `InputEdit` fed to `Syntax::update` (positions are
(line, column) pairs). -/
structure InputEdit where
  startByte : Nat
  oldEndByte : Nat
  newEndByte : Nat
  startPosition : Nat × Nat
  oldEndPosition : Nat × Nat
  newEndPosition : Nat × Nat
deriving DecidableEq, Repr

/-- Model of `Buffer::replace_text_at`.  A range whose start or end exceeds
the rope's character length makes the source log a warning and return
immediately, touching nothing.  Otherwise the range is removed and the text
inserted (each setting the dirty flag only if it did something), and then the
edit is replayed into the syntax tracker when one is present: the byte and
line/column coordinates are computed from the post-edit rope exactly as in
the source (including its use of the old end line for the new end column),
and the external incremental re-parse is modelled by the `upd` parameter
mapping the edit description and previous tree state to the new one. -/
def replaceTextAt (upd : InputEdit → Nat → Nat) (d : Doc) (start stop : Nat)
    (text : List Char) : Doc :=
  if start > d.contents.length then d
  else if stop > d.contents.length then d
  else
    let isEmpty := ¬ start < stop
    let c1 := if ¬ isEmpty then d.contents.take start ++ d.contents.drop stop
              else d.contents
    let m1 := if ¬ isEmpty then true else d.modified
    let c2 := if ¬ text.isEmpty then c1.take start ++ text ++ c1.drop start else c1
    let m2 := if ¬ text.isEmpty then true else m1
    match d.syn with
    | none => {d with contents := c2, modified := m2}
    | some tree =>
      let startByteIdx := charToByte c2 start
      let endByteIdx := if isEmpty then startByteIdx else charToByte c2 stop
      let oldStartLineIdx := byteToLine c2 startByteIdx
      let oldStartColIdx := startByteIdx - lineToByte c2 oldStartLineIdx
      let oldEndLineIdx := if isEmpty then oldStartLineIdx else byteToLine c2 endByteIdx
      let oldEndColIdx :=
        if isEmpty then oldStartColIdx else endByteIdx - lineToByte c2 oldEndLineIdx
      let newEnd := startByteIdx + utf8Len text
      let newEndLineIdx := byteToLine c2 newEnd
      let newEndColIdx := newEnd - lineToByte c2 oldEndLineIdx
      let edit : InputEdit :=
        ⟨startByteIdx, endByteIdx, newEnd,
          (oldStartLineIdx, oldStartColIdx), (oldEndLineIdx, oldEndColIdx),
          (newEndLineIdx, newEndColIdx)⟩
      {d with contents := c2, modified := m2, syn := some (upd edit tree)}

/-- Model of `Buffer::insert_text_at`: replace the empty range at the
cursor. -/
def insertTextAt (upd : InputEdit → Nat → Nat) (d : Doc) (cursor : Nat)
    (text : List Char) : Doc :=
  replaceTextAt upd d cursor cursor text

/-- Model of `Buffer::overwrite_text_at`: replace the range from the cursor
to the text's byte length, as written in the source. -/
def overwriteTextAt (upd : InputEdit → Nat → Nat) (d : Doc) (cursor : Nat)
    (text : List Char) : Doc :=
  replaceTextAt upd d cursor (utf8Len text) text

/-- Model of `Buffer::insert_char_at`. -/
def insertCharAt (upd : InputEdit → Nat → Nat) (d : Doc) (cursor : Nat)
    (ch : Char) : Doc :=
  insertTextAt upd d cursor [ch]

/-- Model of `Buffer::overwrite_char_at`. -/
def overwriteCharAt (upd : InputEdit → Nat → Nat) (d : Doc) (cursor : Nat)
    (ch : Char) : Doc :=
  overwriteTextAt upd d cursor [ch]

/-- Model of `Buffer::replace_char_at`. -/
def replaceCharAt (upd : InputEdit → Nat → Nat) (d : Doc) (start stop : Nat)
    (ch : Char) : Doc :=
  replaceTextAt upd d start stop [ch]

end Buffer

deriving instance DecidableEq for Except

namespace Buffer

/-! Facts about the `FORMAT` control table, needed for the hex round-trip:
an index holding an entry is below 50, `First` is always followed by
`Second`, and no entry other than the one right after a `First` is a
`Second`. -/

/-- An index holding a control entry is inside the 50-entry table. -/
theorem fmt_lt {col : Nat} {e : Control} (h : FORMAT.get? col = some e) :
    col < 50 := by
  obtain ⟨hlt, -⟩ := List.get?_eq_some.mp h
  simpa [FORMAT] using hlt

set_option maxRecDepth 16384 in
/-- After a `First` entry comes a `Second` entry. -/
theorem fmt_after_first {col : Nat} (h : FORMAT.get? col = some Control.first) :
    FORMAT.get? (col + 1) = some Control.second :=
  (by decide :
    ∀ c, c < 50 → FORMAT.get? c = some Control.first →
      FORMAT.get? (c + 1) = some Control.second) col (fmt_lt h) h

set_option maxRecDepth 16384 in
/-- After a `Second` entry the table continues (with a non-`Second` entry). -/
theorem fmt_after_second {col : Nat} (h : FORMAT.get? col = some Control.second) :
    (FORMAT.get? (col + 1)).isSome ∧ FORMAT.get? (col + 1) ≠ some Control.second :=
  (by decide :
    ∀ c, c < 50 → FORMAT.get? c = some Control.second →
      (FORMAT.get? (c + 1)).isSome ∧ FORMAT.get? (c + 1) ≠ some Control.second)
    col (fmt_lt h) h

set_option maxRecDepth 16384 in
/-- After a `Space` entry the table continues (with a non-`Second` entry). -/
theorem fmt_after_space {col : Nat} (h : FORMAT.get? col = some Control.space) :
    (FORMAT.get? (col + 1)).isSome ∧ FORMAT.get? (col + 1) ≠ some Control.second :=
  (by decide :
    ∀ c, c < 50 → FORMAT.get? c = some Control.space →
      (FORMAT.get? (c + 1)).isSome ∧ FORMAT.get? (c + 1) ≠ some Control.second)
    col (fmt_lt h) h

/-- Column 2 (where the inlined newline wrap resumes) holds a `Space`. -/
theorem fmt_two : FORMAT.get? 2 = some Control.space := by decide

/-! Facts about nibbles and hex digit characters. -/

set_option maxRecDepth 16384 in
/-- Both nibbles of a byte are below 16. -/
theorem nib_lt {b : Nat} (hb : b < 256) :
    (b.land 240) >>> 4 < 16 ∧ b.land 15 < 16 :=
  (by decide : ∀ b, b < 256 → (b.land 240) >>> 4 < 16 ∧ b.land 15 < 16) b hb

set_option maxRecDepth 16384 in
/-- Reassembling the two nibbles with `(state << 4) | digit` recovers the
byte. -/
theorem nib_combine {b : Nat} (hb : b < 256) :
    (((b.land 240) >>> 4) <<< 4) ||| (b.land 15) = b :=
  (by decide : ∀ b, b < 256 → (((b.land 240) >>> 4) <<< 4) ||| (b.land 15) = b) b hb

/-- A nibble renders as a hex digit character: not whitespace, and read back
by `to_digit(16)` as the same value. -/
theorem hexToAscii_digit {h : Nat} (hh : h < 16) :
    toDigit16 (hexToAscii h) = some h ∧ rustWhitespace (hexToAscii h) = false :=
  (by decide :
    ∀ h, h < 16 →
      toDigit16 (hexToAscii h) = some h ∧ rustWhitespace (hexToAscii h) = false) h hh

/-! Unfolding equations of the hex reader, one per control entry. -/

/-- Reading at a `First` entry emits the high nibble. -/
theorem readHexAux_first {b : Nat} {rest : List Nat} {col : Nat}
    (h : FORMAT.get? col = some Control.first) :
    readHexAux (b :: rest) col
      = hexToAscii ((b.land 240) >>> 4) :: readHexAux (b :: rest) (col + 1) := by
  rw [readHexAux]
  split <;> simp_all

/-- Reading at a `Second` entry emits the low nibble and consumes the byte. -/
theorem readHexAux_second {b : Nat} {rest : List Nat} {col : Nat}
    (h : FORMAT.get? col = some Control.second) :
    readHexAux (b :: rest) col
      = hexToAscii (b.land 15) :: readHexAux rest (col + 1) := by
  rw [readHexAux]
  split <;> simp_all

/-- Reading at a `Space` entry emits a space. -/
theorem readHexAux_space {b : Nat} {rest : List Nat} {col : Nat}
    (h : FORMAT.get? col = some Control.space) :
    readHexAux (b :: rest) col = ' ' :: readHexAux (b :: rest) (col + 1) := by
  rw [readHexAux]
  split <;> simp_all

/-- Reading at the `Next` entry emits the newline and then both nibbles. -/
theorem readHexAux_next {b : Nat} {rest : List Nat} {col : Nat}
    (h : FORMAT.get? col = some Control.next) :
    readHexAux (b :: rest) col
      = '\n' :: hexToAscii ((b.land 240) >>> 4) :: hexToAscii (b.land 15)
          :: readHexAux rest 2 := by
  rw [readHexAux]
  split <;> simp_all

/-- The hex round-trip, strengthened for the induction: from any live column
of the format table, serializing the formatted text appends exactly the
remaining bytes.  The first conjunct handles the parser between bytes (no
pending nibble, current entry not `Second`), the second handles it mid-byte
(the pending high nibble of the next byte, current entry `Second`). -/
theorem hexRoundAux (bytes : List Nat) (col : Nat) :
    (∀ b ∈ bytes, b < 256) → ((FORMAT.get? col).isSome ∨ bytes = []) →
    ∀ orig i buf,
      (FORMAT.get? col ≠ some Control.second →
        writeHexGo orig (readHexAux bytes col) i none buf = .ok (buf ++ bytes)) ∧
      (∀ b rest, bytes = b :: rest → FORMAT.get? col = some Control.second →
        writeHexGo orig (readHexAux bytes col) i (some ((b.land 240) >>> 4)) buf
          = .ok (buf ++ bytes)) := by
  induction bytes, col using readHexAux.induct with
  | case1 col =>
    intro _ _ orig i buf
    refine ⟨fun _ => ?_, fun b rest h => by simp at h⟩
    simp [readHexAux, writeHexGo]
  | case2 b rest col h ih =>
    intro hb hsome orig i buf
    have hhi := (nib_lt (hb b (by simp))).1
    refine ⟨fun _ => ?_, fun b' rest' heq hsec => by rw [h] at hsec; simp at hsec⟩
    rw [readHexAux_first h]
    rw [writeHexGo]
    simp only [(hexToAscii_digit hhi).2, Bool.false_eq_true, if_false,
      (hexToAscii_digit hhi).1]
    exact (ih hb (Or.inl (by rw [fmt_after_first h]; rfl)) orig (i + 1) buf).2
      b rest rfl (fmt_after_first h)
  | case3 b rest col h ih =>
    intro hb hsome orig i buf
    refine ⟨fun hne => absurd h hne, fun b' rest' heq hsec => ?_⟩
    obtain ⟨heq1, heq2⟩ := List.cons.inj heq
    subst heq1
    subst heq2
    have hlo := (nib_lt (hb b (by simp))).2
    rw [readHexAux_second h]
    rw [writeHexGo]
    simp only [(hexToAscii_digit hlo).2, Bool.false_eq_true, if_false,
      (hexToAscii_digit hlo).1]
    rw [nib_combine (hb b (by simp))]
    have := (ih (fun x hx => hb x (by simp [hx]))
      (Or.inl (fmt_after_second h).1) orig (i + 1) (buf ++ [b])).1
      (fmt_after_second h).2
    simpa using this
  | case4 b rest col h ih =>
    intro hb hsome orig i buf
    refine ⟨fun _ => ?_, fun b' rest' heq hsec => by rw [h] at hsec; simp at hsec⟩
    rw [readHexAux_space h]
    rw [writeHexGo]
    simp only [show rustWhitespace ' ' = true by decide, if_true]
    exact (ih hb (Or.inl (fmt_after_space h).1) orig (i + 1) buf).1
      (fmt_after_space h).2
  | case5 b rest col h ih =>
    intro hb hsome orig i buf
    have hhi := (nib_lt (hb b (by simp))).1
    have hlo := (nib_lt (hb b (by simp))).2
    refine ⟨fun _ => ?_, fun b' rest' heq hsec => by rw [h] at hsec; simp at hsec⟩
    rw [readHexAux_next h]
    rw [writeHexGo]
    simp only [show rustWhitespace '\n' = true by decide, if_true]
    rw [writeHexGo]
    simp only [(hexToAscii_digit hhi).2, Bool.false_eq_true, if_false,
      (hexToAscii_digit hhi).1]
    rw [writeHexGo]
    simp only [(hexToAscii_digit hlo).2, Bool.false_eq_true, if_false,
      (hexToAscii_digit hlo).1]
    rw [nib_combine (hb b (by simp))]
    have := (ih (fun x hx => hb x (by simp [hx]))
      (Or.inl (by rw [fmt_two]; rfl)) orig (i + 1 + 1 + 1) (buf ++ [b])).1
      (by rw [fmt_two]; simp)
    simpa using this
  | case6 b rest col h =>
    intro hb hsome orig i buf
    rcases hsome with hsome | hsome
    · rw [h] at hsome; simp at hsome
    · simp at hsome

/-- Error locality of the hex serializer: if character `n` of the remaining
input is the first one that is neither whitespace nor a hex digit, the loop
stops there and reports the position computed from the enumeration index
`i + n`. -/
theorem writeHexGo_error (orig : List Char) :
    ∀ (n : Nat) (cs : List Char) (i : Nat) (state : Option Nat) (buf : List Nat)
      (c : Char), cs.get? n = some c →
      ((cs.take n).all (fun cj => rustWhitespace cj || (toDigit16 cj).isSome)) = true →
      rustWhitespace c = false → toDigit16 c = none →
      writeHexGo orig cs i state buf
        = .error (charToLine orig (i + n) + 1,
            (i + n) - lineToChar orig (charToLine orig (i + n)) + 1) := by
  intro n
  induction n with
  | zero =>
    intro cs i state buf c hget hpre hws hdig
    match cs, hget with
    | c' :: rest, hget =>
      have hc : c' = c := by simpa using hget
      subst hc
      rw [writeHexGo]
      simp [hws, hdig]
  | succ n ih =>
    intro cs i state buf c hget hpre hws hdig
    match cs, hget with
    | d :: rest, hget =>
      have hget' : rest.get? n = some c := by simpa using hget
      rw [List.take_succ_cons, List.all_cons, Bool.and_eq_true] at hpre
      obtain ⟨hd, hpre'⟩ := hpre
      have harith : i + 1 + n = i + (n + 1) := by omega
      rw [writeHexGo]
      by_cases hwd : rustWhitespace d = true
      · rw [if_pos hwd]
        have := ih rest (i + 1) state buf c hget' hpre' hws hdig
        rwa [harith] at this
      · rw [if_neg hwd]
        have hwdf : rustWhitespace d = false := by simpa using hwd
        rw [hwdf, Bool.false_or] at hd
        obtain ⟨v, hv⟩ := Option.isSome_iff_exists.mp hd
        rw [hv]
        match state with
        | some s =>
          have := ih rest (i + 1) none (buf ++ [(s <<< 4) ||| v]) c hget' hpre' hws hdig
          rwa [harith] at this
        | none =>
          have := ih rest (i + 1) (some v) buf c hget' hpre' hws hdig
          rwa [harith] at this

end Buffer

namespace Tramp

/-- Popping a vector that was just pushed returns the pushed element and the
previous contents. -/
theorem vecPop_append {α : Type} (l : List α) (s : α) :
    vecPop (l ++ [s]) = some (s, l) := by
  induction l with
  | nil => rfl
  | cons x l ih =>
    cases l with
    | nil => rfl
    | cons y l' =>
      simp only [List.cons_append] at ih ⊢
      rw [vecPop, ih]

/-- Correctness of the substring search: a returned index is a real
occurrence. -/
theorem strFind_prefix {pool s : List Char} {i : Nat}
    (h : strFind pool s = some i) : s.isPrefixOf (pool.drop i) = true := by
  induction pool generalizing i with
  | nil =>
    unfold strFind at h
    split at h
    · obtain rfl : (0 : Nat) = i := by simpa using h
      simp_all [List.isEmpty_iff]
    · simp at h
  | cons c rest ih =>
    unfold strFind at h
    split at h
    · obtain rfl : (0 : Nat) = i := by simpa using h
      simp_all
    · obtain ⟨j, hj, rfl⟩ := Option.map_eq_some'.mp h
      simpa using ih hj

end Tramp

/-! Claim theorems. -/

/-- Claim C1 (divergence witness): for a path naming no existing file, both
filesystem probes report not-found, and `open_local` propagates the not-found
error of its first, read-write attempt as a failure — only a
permission-denied error falls through there.  So no Document with
not-yet-created provenance is produced, contrary to the claim (the `NewFile`
branch and `write`'s exclusive-create path exist but are unreachable this
way). -/
theorem c1_open_local_missing_file_errors
    (roAttempt : Except Buffer.IoErr (List Nat))
    (tryNbt : List Nat → Option (List Char)) (synRw synRo synNew : Option Nat)
    (path : String) :
    Buffer.openLocal (.error .notFound) roAttempt tryNbt synRw synRo synNew path
      = .error .notFound := rfl

/-- Claim C2: decoding any byte sequence with the hex-dump transform and
re-encoding the resulting rope under the `Hex` transform reproduces the bytes
exactly. -/
theorem c2_hexdump_roundtrip (nbtEnc : List Char → Option (List Nat))
    (bytes : List Nat) (hb : ∀ b ∈ bytes, b < 256) :
    Buffer.writeTo nbtEnc (Buffer.readHex bytes) .Hex = .ok bytes := by
  have h : Buffer.writeHexBytes (Buffer.readHex bytes) = .ok bytes := by
    have h := (Buffer.hexRoundAux bytes 0 hb (Or.inl (by decide))
      (Buffer.readHex bytes) 0 []).1 (by decide)
    simpa [Buffer.writeHexBytes, Buffer.readHex] using h
  simp [Buffer.writeTo, h]

/-- Witness for claim C2 at a concrete byte sequence. -/
theorem c2_hexdump_roundtrip_witness :
    Buffer.writeTo (fun _ => none)
        (Buffer.readHex [0, 15, 16, 127, 128, 255, 1, 2, 3, 4, 5, 6, 7, 8, 9,
          10, 11, 12, 13, 14, 16, 32]) .Hex
      = .ok [0, 15, 16, 127, 128, 255, 1, 2, 3, 4, 5, 6, 7, 8, 9, 10, 11, 12,
          13, 14, 16, 32] :=
  c2_hexdump_roundtrip _ _ (by decide)

/-- Claim C3: detection priority of `read_from` — any byte sequence decoding
as UTF-8 is classified `Utf8` (text detection runs first, whatever the bytes
begin with), and only inputs that are neither valid text nor a decodable
structured payload fall through to the hex dump, which always succeeds. -/
theorem c3_detection_priority (tryNbt : List Nat → Option (List Char))
    (bytes : List Nat) :
    ((Buffer.decodeUtf8 bytes).isSome = true →
      (Buffer.readFrom tryNbt bytes).2 = .Utf8) ∧
    (Buffer.decodeUtf8 bytes = none → tryNbt bytes = none →
      Buffer.readFrom tryNbt bytes = (Buffer.readHex bytes, .Hex)) := by
  constructor
  · intro h
    obtain ⟨s, hs⟩ := Option.isSome_iff_exists.mp h
    simp [Buffer.readFrom, hs]
  · intro h1 h2
    simp [Buffer.readFrom, h1, h2]

/-- Witness for claim C3: the bytes of "hi" decode as UTF-8 and are
classified as plain text even with a structured-binary decoder that would
accept them. -/
theorem c3_detection_priority_witness :
    (Buffer.readFrom (fun _ => some []) [104, 105]).2 = .Utf8 :=
  (c3_detection_priority (fun _ => some []) [104, 105]).1 (by decide)

/-- Claim C4 counterexample: the hop segment with a trailing `askpw` token
parses to exactly the same descriptor as the one without it — `Part::parse`
never reads a fourth token and no `Part` variant stores a password flag, so
the parse result cannot record `needs_password = true` as the claim
states. -/
theorem c4_askpw_not_recorded :
    Tramp.Part.parse [] "ssh:example.com:2222:askpw".toList
      = Tramp.Part.parse [] "ssh:example.com:2222".toList := by decide

/-- Claim C4 (amended): `"ssh:example.com:2222:askpw"` parses to an `Ssh`
descriptor with host `"example.com"` and port 2222 (the `askpw` token is
ignored and no password flag is recorded); `"ssh:example.com"` defaults the
port to 22; `"foo"` is a parse error. -/
theorem c4_hop_parsing_amended :
    Tramp.Part.parse [] "ssh:example.com:2222:askpw".toList
      = .ok (.Ssh ⟨0, 11⟩ 2222, "example.com".toList) ∧
    Tramp.Str.asStr ⟨0, 11⟩ "example.com".toList = "example.com".toList ∧
    Tramp.Part.parse [] "ssh:example.com".toList
      = .ok (.Ssh ⟨0, 11⟩ 22, "example.com".toList) ∧
    Tramp.Part.parse [] "foo".toList = .error "unknown protocol" :=
  ⟨by decide, by decide, by decide, by decide⟩

/-- Claim C5 (divergence witness): when the first wait of
`run_cmd_askpw_checked` matches the password-prompt pattern, the source runs
`todo!("got askpw '{askpw}'")`, i.e. the process panics; no credential is
obtained or forwarded and no recoverable error is returned, contrary to the
claim. -/
theorem c5_askpw_prompt_panics (result askpw exitWait : List Char) :
    Tramp.runCmdAskpwChecked (result, some askpw) exitWait
      = .panicked ("got askpw '".toList ++ askpw ++ "'".toList) := rfl

/-- Claim C6: a file readable but not writable makes the read-write probe
fail with permission-denied and the read-only probe succeed, so `open_local`
returns a Document with read-only `File` provenance, and `write` on it fails
with the read-only error, returning the document unchanged and never touching
the destination. -/
theorem c6_readonly_open_write_fails (bytes : List Nat)
    (tryNbt : List Nat → Option (List Char)) (synRw synRo synNew : Option Nat)
    (path : String) (nbtEnc : List Char → Option (List Nat))
    (createNew : Except Buffer.IoErr Unit) :
    ∃ d : Buffer.Doc,
      Buffer.openLocal (.error .permissionDenied) (.ok bytes) tryNbt
          synRw synRo synNew path = .ok d ∧
      d.inner = .file true ∧
      Buffer.write d nbtEnc createNew = (d, none, some "readonly") :=
  ⟨_, rfl, rfl, rfl⟩

/-- Claim C7: saving a hex-dump document fails at the first character that is
neither whitespace nor a hex digit, reporting the source's
`(row + 1, col + 1)` where `row` is the number of line breaks (in ropey's
default set, CR LF counting once) completed before the character and `col`
its character offset from the start of that line; no bytes are produced. -/
theorem c7_hex_error_position (nbtEnc : List Char → Option (List Nat))
    (cs : List Char) (i : Nat) (c : Char) (hget : cs.get? i = some c)
    (hpre : ((cs.take i).all
      (fun cj => rustWhitespace cj || (toDigit16 cj).isSome)) = true)
    (hws : rustWhitespace c = false) (hdig : toDigit16 c = none) :
    Buffer.writeTo nbtEnc cs .Hex
      = .error (.invalidToken (Buffer.charToLine cs i + 1)
          (i - Buffer.lineToChar cs (Buffer.charToLine cs i) + 1)) := by
  have h := Buffer.writeHexGo_error cs i cs 0 none [] c hget hpre hws hdig
  rw [Nat.zero_add] at h
  simp [Buffer.writeTo, Buffer.writeHexBytes, h]

/-- Witness for claim C7: a non-hex character at line 3, column 5 is reported
as exactly (3, 5). -/
theorem c7_hex_error_position_witness :
    Buffer.writeTo (fun _ => none) "aa\nbb\ncc 3g".toList .Hex
      = .error (.invalidToken 3 5) := by
  have h := c7_hex_error_position (fun _ => none) "aa\nbb\ncc 3g".toList 10 'g'
    (by decide) (by decide) (by decide) (by decide)
  rw [h]
  decide

/-- Claim C8: a `connect_to` right after a `recycle` of a session for the
same chain pops that very session from the chain's idle bucket — the same
object comes back and no login sequence is executed. -/
theorem c8_pool_reuse (p : Tramp.Pool) (s : Tramp.Session) (freshId : Nat) :
    Tramp.connectTo (Tramp.recycle p s) s.remote freshId
      = (s, Tramp.updatePool (Tramp.recycle p s) s.remote (p s.remote), false) := by
  unfold Tramp.connectTo
  have hb : Tramp.recycle p s s.remote = p s.remote ++ [s] := by
    simp [Tramp.recycle, Tramp.updatePool]
  rw [hb, Tramp.vecPop_append]

/-- Claim C9: `replace_text_at` with a range whose start or end exceeds the
rope's character length returns immediately, leaving the contents, the dirty
flag and the syntax tracker untouched. -/
theorem c9_oob_edit_noop (upd : Buffer.InputEdit → Nat → Nat) (d : Buffer.Doc)
    (start stop : Nat) (text : List Char)
    (h : start > d.contents.length ∨ stop > d.contents.length) :
    Buffer.replaceTextAt upd d start stop text = d := by
  unfold Buffer.replaceTextAt
  rcases h with h | h
  · rw [if_pos h]
  · by_cases h1 : start > d.contents.length
    · rw [if_pos h1]
    · rw [if_neg h1, if_pos h]

/-- Witness for claim C9 at a concrete out-of-bounds edit. -/
theorem c9_oob_edit_noop_witness :
    Buffer.replaceTextAt (fun _ t => t)
        ⟨"ab".toList, "x", .Utf8, .scratch false, false, some 0⟩ 5 0 "zz".toList
      = ⟨"ab".toList, "x", .Utf8, .scratch false, false, some 0⟩ :=
  c9_oob_edit_noop _ _ _ _ _ (Or.inl (by decide))

/-- Claim C10: interning round-trips — resolving the handle returned by
`Str::new` against the updated pool yields exactly the interned string,
whether it was found inside the pool or freshly appended. -/
theorem c10_intern_roundtrip (pool s : List Char)
    (h : pool.length + s.length < 4294967296) :
    ((Tramp.strNew pool s).1).asStr (Tramp.strNew pool s).2 = s := by
  unfold Tramp.strNew
  cases hf : Tramp.strFind pool s with
  | some start =>
    have hpre := Tramp.strFind_prefix hf
    rw [List.isPrefixOf_iff_prefix] at hpre
    simpa [Tramp.Str.asStr] using (List.prefix_iff_eq_take.mp hpre).symm
  | none =>
    simp [Tramp.Str.asStr, List.drop_left, List.take_length]

/-- Witness for claim C10 at a concrete pool and string (both the found and
the appended paths are exercised in the proof; this instance hits the found
path). -/
theorem c10_intern_roundtrip_witness :
    ((Tramp.strNew "ab".toList "b".toList).1).asStr
        (Tramp.strNew "ab".toList "b".toList).2 = "b".toList :=
  c10_intern_roundtrip _ _ (by decide)
